import Mathlib

/-!
Shallow embedding of the lighting-control CLI (`lighting-control-cli.py`):
the drift-correcting scheduler (`ScheduledLoop`), the effect-loop bodies,
the tap-tempo estimator, the latency tracker, and the interactive command
dispatcher.  Times, tempos and latencies are modelled as exact rationals;
Python locals that may be read before assignment are modelled as `Option`
values with `none` for the unbound state, and a read of an unbound local
maps the whole step to `none` (the `UnboundLocalError`).
-/

namespace Lighting

/-- `NAMED_COLORS`: the static colour-name lookup table. -/
def namedColors : List (String × String) :=
  [("white", "#ffffff"),
   ("red", "#FF0000"),
   ("orange", "#FF2000"),
   ("yellow", "#FF9200"),
   ("ferngreen", "#AAFF00"),
   ("green", "#00FF00"),
   ("seagreen", "#0EFF1E"),
   ("cyan", "#00FFDD"),
   ("lavender", "#4433fa"),
   ("blue", "#0000FF"),
   ("violet", "#9900FF"),
   ("magenta", "#FE00AE"),
   ("pink", "#FF0016")]

/-- `str.lower()` restricted to ASCII, acting on the character list. -/
def strLower (s : String) : String := ⟨s.data.map Char.toLower⟩

/-- `str.startswith("#")`: the first character is the hash mark. -/
def startsWithHash (s : String) : Bool :=
  match s.data with
  | [] => false
  | c :: _ => c == ('#')

/-- `resolve_color`: strings already hex-prefixed pass through unchanged,
otherwise a case-insensitive name lookup falls back to the input itself. -/
def resolveColor (c : String) : String :=
  if startsWithHash c then c
  else (namedColors.lookup (strLower c)).getD c

/-- The initial global `COLORS` list. -/
def initialColors : List String := ["#FE00AE", "#00FFDD"]

/-- The initial global `TEMPO`. -/
def initialTempo : ℚ := 120

/-! ### ScheduledLoop -/

/-- The constructor arguments of `ScheduledLoop`: `beats_per_cycle` (which the
callers sometimes pass as `None`) and the optional `intervalOverride`. -/
structure LoopConfig where
  beatsPerCycle : Option ℚ
  intervalOverride : Option ℚ
deriving DecidableEq

/-- The mutable timing cursor of a `ScheduledLoop`: `start_time` (the anchor,
`None` until first use) and `cycle_num`. -/
structure LoopState where
  startTime : Option ℚ
  cycleNum : ℕ
deriving DecidableEq

/-- `ScheduledLoop.calculate_interval`.  The Python guard is `if self.interval:`
(truthiness), so an override of `0` falls through to the tempo formula; and a
`beats_per_cycle` of `None` reaching the formula is a `TypeError`, modelled
as `none`. -/
def calculateInterval (cfg : LoopConfig) (tempo : ℚ) : Option ℚ :=
  let beatDuration : ℚ := 60 / tempo
  match cfg.intervalOverride with
  | some v => if v = 0 then cfg.beatsPerCycle.map (fun b => beatDuration * b) else some v
  | none => cfg.beatsPerCycle.map (fun b => beatDuration * b)

/-- `ScheduledLoop.reset_timing` at instant `now`. -/
def resetTiming (now : ℚ) : LoopState :=
  { startTime := some now, cycleNum := 0 }

/-- The implicit anchor initialisation at the top of `wait_for_next_cycle`:
if `start_time is None` the cursor is reset to `now` first. -/
def anchorInit (now : ℚ) (st : LoopState) : LoopState :=
  match st.startTime with
  | none => resetTiming now
  | some _ => st

/-- The signed slack `scheduled_time - now` computed by `wait_for_next_cycle`
once the anchor is initialised and the interval is `i`. -/
def waitTime (now : ℚ) (st : LoopState) (i : ℚ) : ℚ :=
  (anchorInit now st).startTime.getD now + ((anchorInit now st).cycleNum : ℚ) * i - now

/-- `ScheduledLoop.wait_for_next_cycle`, with all `time.perf_counter()` reads of
one invocation modelled as the single instant `now`.  Returns the new cursor and
the boolean result (`True` = fire, `False` = skip); `none` models the
`TypeError` of an interval computation on `beats_per_cycle = None`.  The sleep
taken when the slack is positive has no effect on the returned data. -/
def waitForNextCycle (cfg : LoopConfig) (tempo : ℚ) (now : ℚ) (st : LoopState) :
    Option (LoopState × Bool) :=
  let st1 := anchorInit now st
  match calculateInterval cfg tempo with
  | none => none
  | some interval =>
    let wait := waitTime now st interval
    if 0 < wait then
      some ({ st1 with cycleNum := st1.cycleNum + 1 }, true)
    else if wait < -(1/10) then
      some (resetTiming now, false)
    else
      some ({ st1 with cycleNum := st1.cycleNum + 1 }, true)

/-- A sequence of `wait_for_next_cycle` calls at the given instants, collecting
the fire/skip results. -/
def runCycles (cfg : LoopConfig) (tempo : ℚ) (st : LoopState) :
    List ℚ → Option (LoopState × List Bool)
  | [] => some (st, [])
  | now :: rest =>
    match waitForNextCycle cfg tempo now st with
    | none => none
    | some (st1, r) =>
      match runCycles cfg tempo st1 rest with
      | none => none
      | some (stF, rs) => some (stF, r :: rs)

/-! ### Tap-tempo estimator -/

/-- Python's `round` (round half to even) on an exact rational. -/
def pyRound (q : ℚ) : ℤ :=
  let f : ℤ := ⌊q⌋
  let r : ℚ := q - (f : ℚ)
  if r < 1/2 then f
  else if 1/2 < r then f + 1
  else if f % 2 = 0 then f else f + 1

/-- The clamp `max(40, min(240, new_tempo))` applied to the raw BPM. -/
def clampTempo (n : ℤ) : ℤ := max 40 (min 240 n)

/-- Appending to a `deque(maxlen=8)`: evict the oldest entry once 8 are held. -/
def pushTap (buf : List ℚ) (now : ℚ) : List ℚ :=
  if buf.length = 8 then buf.tail ++ [now] else buf ++ [now]

/-- The consecutive pairwise intervals `tap_times[i] - tap_times[i-1]`. -/
def intervalsOf (buf : List ℚ) : List ℚ :=
  List.zipWith (fun a b => a - b) buf.tail buf

/-- The arithmetic mean of a list (sum over length). -/
def meanOf (l : List ℚ) : ℚ := l.sum / (l.length : ℚ)

/-- One `'t'` key press inside `tap_tempo`: append the timestamp, and when the
buffer then holds at least two entries publish the clamped rounded BPM derived
from the mean consecutive interval; otherwise leave the tempo unchanged. -/
def tapStep (buf : List ℚ) (tempo : ℚ) (now : ℚ) : List ℚ × ℚ :=
  let buf1 := pushTap buf now
  if 2 ≤ buf1.length then
    (buf1, ((clampTempo (pyRound (60 / meanOf (intervalsOf buf1)))) : ℚ))
  else
    (buf1, tempo)

/-- A whole `tap_tempo` session: the buffer starts empty, the tempo starts at
the current global tempo, and each timestamp in order is one `'t'` press. -/
def runTaps (tempo : ℚ) (taps : List ℚ) : List ℚ × ℚ :=
  List.foldl (fun p now => tapStep p.1 p.2 now) (([] : List ℚ), tempo) taps

/-! ### Latency tracker -/

/-- Appending to `latency_history = deque(maxlen=50)`. -/
def recordLatency (h : List ℚ) (x : ℚ) : List ℚ :=
  if h.length = 50 then h.tail ++ [x] else h ++ [x]

/-- `get_latency_stats`: `none` is the "No latency data yet" sentinel, otherwise
the triple (average, minimum, maximum) over the current window. -/
def getLatencyStats (h : List ℚ) : Option (ℚ × ℚ × ℚ) :=
  match h with
  | [] => none
  | x :: xs => some (meanOf (x :: xs), xs.foldl min x, xs.foldl max x)

/-! ### Device actions dispatched by loops and the command dispatcher -/

/-- The fire-and-forget device calls (and the one user-facing error report the
`colors` branch can print) that the embedded code can emit. -/
inductive Action where
  | setPowerA (b : Bool)
  | setColorA (c : String) (brightness : ℕ)
  | setEffectA (e : String) (speed : ℕ)
  | flashA
  | invalidColorsMsg
deriving DecidableEq

/-! ### The fade branch of `color_cycle_loop` -/

/-- The locals of `color_cycle_loop` relevant to one `"fade"` fire cycle.
`power_state` is only ever assigned inside the warm-up block that is commented
out, so at loop entry it is an unbound local: `powerState = none`. -/
structure FadeState where
  powerState : Option Bool
  colorIndex : ℕ
  colorsToUse : List String
deriving DecidableEq

/-- The locals of `color_cycle_loop(mode="fade", color=None)` as they stand when
the `while` loop is first entered, given the current global `COLORS`. -/
def initFadeState (colors : List String) : FadeState :=
  { powerState := none, colorIndex := 0, colorsToUse := colors }

/-- The `mode == "fade"` body executed on a "fire" cycle: toggle `power_state`
and dispatch it, and on a transition to on (with more than one colour) advance
the colour index with wrap-around and dispatch the new colour.  Reading the
unbound `power_state` is the `UnboundLocalError`, modelled as `none`. -/
def fadeFire (st : FadeState) : Option (FadeState × List Action) :=
  match st.powerState with
  | none => none
  | some p =>
    let p1 := !p
    if p1 ∧ 1 < st.colorsToUse.length then
      let idx := (st.colorIndex + 1) % st.colorsToUse.length
      some ({ st with powerState := some p1, colorIndex := idx },
        [Action.setPowerA p1, Action.setColorA (st.colorsToUse.getD idx "") 100])
    else
      some ({ st with powerState := some p1 }, [Action.setPowerA p1])

/-! ### The interactive command dispatcher -/

/-- The `effects` list cycled by the `e` command. -/
def effects : List String :=
  ["seven_color_cross_fade",
   "red_gradual_change",
   "green_gradual_change",
   "blue_gradual_change",
   "yellow_gradual_change",
   "cyan_gradual_change",
   "purple_gradual_change",
   "white_gradual_change",
   "red_green_cross_fade",
   "red_blue_cross_fade",
   "green_blue_cross_fade",
   "seven_color_strobe_flash",
   "red_strobe_flash",
   "green_strobe_flash",
   "blue_stobe_flash",
   "yellow_strobe_flash",
   "cyan_strobe_flash",
   "purple_strobe_flash",
   "white_strobe_flash",
   "seven_color_jumping"]

/-- The commands `interactive_mode` dispatches on, already parsed: `tapCmd`
carries the timestamps of the `'t'` presses of the tap session, `tempoCmd`
carries the parsed integer argument (`none` covers both a bare `tempo` and a
non-numeric argument, which leave the tempo unchanged). -/
inductive Cmd where
  | q
  | e
  | p
  | setColorCmd (c : String)
  | f
  | strobeCmd
  | fadeCmd (c : Option String)
  | switchCmd (c : Option String)
  | colorsCmd (args : List String)
  | palette
  | beatCmd
  | tapCmd (taps : List ℚ)
  | tempoCmd (arg : Option ℤ)
  | dblTempo
  | halveTempo
  | stopCmd
  | statsCmd
  | unknown

/-- The mutable state of `interactive_mode`: the globals `TEMPO` and `COLORS`,
the locals `i`, `power`, `strobe`, the four task handles (a handle records the
colour argument the loop was started with, `none` = no task), and the
`previous_tasks` pair of booleans. -/
structure DispatchState where
  tempo : ℚ
  colors : List String
  effectIdx : ℕ
  power : Bool
  strobe : Bool
  beatTask : Bool
  fadeTask : Option (Option String)
  switchTask : Option (Option String)
  strobeTask : Option (Option String)
  prevFade : Bool
  prevSwitch : Bool
deriving DecidableEq

/-- The state when `interactive_mode` starts. -/
def initDispatch : DispatchState :=
  { tempo := initialTempo, colors := initialColors, effectIdx := 0,
    power := false, strobe := false,
    beatTask := false, fadeTask := none, switchTask := none, strobeTask := none,
    prevFade := false, prevSwitch := false }

/-- `stop_all_tasks`: cancel every non-null handle and return all-`None`;
the dispatcher always assigns the four `None`s back to the handles. -/
def stopAllTasks (s : DispatchState) : DispatchState :=
  { s with beatTask := false, fadeTask := none, switchTask := none,
           strobeTask := none }

/-- One iteration of the `interactive_mode` command loop: the next state and
the device actions dispatched while handling the command.  Tempo arithmetic is
exact rational here; the float underflow of the `[` halving branch, which the
exact halving cannot reproduce, is modelled by `floatHalfUnits`. -/
def stepCmd (s : DispatchState) : Cmd → DispatchState × List Action
  | .q => (s, [])
  | .e =>
    ({ s with effectIdx := s.effectIdx + 1 },
     [Action.setEffectA (effects.getD (s.effectIdx % effects.length) "") 100])
  | .p => ({ s with power := !s.power }, [Action.setPowerA s.power])
  | .setColorCmd c => (s, [Action.setColorA (resolveColor c) 100])
  | .f => (s, [Action.flashA])
  | .strobeCmd =>
    let strobe1 := !s.strobe
    let pf := if strobe1 then s.fadeTask.isSome else s.prevFade
    let ps := if strobe1 then s.switchTask.isSome else s.prevSwitch
    let s1 := stopAllTasks { s with strobe := strobe1, prevFade := pf, prevSwitch := ps }
    if strobe1 then ({ s1 with strobeTask := some none }, [])
    else if pf then ({ s1 with fadeTask := some none }, [])
    else if ps then ({ s1 with switchTask := some none }, [])
    else (s1, [])
  | .fadeCmd c => ({ stopAllTasks s with fadeTask := some c }, [])
  | .switchCmd c => ({ stopAllTasks s with switchTask := some c }, [])
  | .colorsCmd args =>
    if args = [] then (s, [])
    else
      let newColors := (args.map resolveColor).filter (fun c => startsWithHash c)
      if newColors = [] then (s, [Action.invalidColorsMsg])
      else ({ s with colors := newColors }, [])
  | .palette => (s, [])
  | .beatCmd => ({ stopAllTasks s with beatTask := true }, [])
  | .tapCmd taps => ({ s with tempo := (runTaps s.tempo taps).2 }, [])
  | .tempoCmd arg =>
    match arg with
    | none => (s, [])
    | some n =>
      if 40 ≤ n ∧ n ≤ 240 then ({ s with tempo := (n : ℚ) }, []) else (s, [])
  | .dblTempo => ({ s with tempo := s.tempo * 2 }, [])
  | .halveTempo => ({ s with tempo := s.tempo / 2 }, [])
  | .stopCmd => (stopAllTasks s, [Action.setPowerA false])
  | .statsCmd => (s, [])
  | .unknown => (s, [])

/-- Running a whole sequence of commands, keeping only the state. -/
def runCmds (s : DispatchState) (cmds : List Cmd) : DispatchState :=
  List.foldl (fun st c => (stepCmd st c).1) s cmds

/-- How many of the four rhythmic task handles are live. -/
def liveTasks (s : DispatchState) : ℕ :=
  (if s.beatTask then 1 else 0) + (if s.fadeTask.isSome then 1 else 0) +
  (if s.switchTask.isSome then 1 else 0) + (if s.strobeTask.isSome then 1 else 0)

/-- A hexadecimal digit character. -/
def isHexDigitChar (c : Char) : Bool :=
  c.isDigit || (('a' ≤ c) && (c ≤ 'f')) || (('A' ≤ c) && (c ≤ 'F'))

/-- Follows the spec's words, for comparison with the code: a well-formed hex
colour is the hash mark followed by six hexadecimal digits.  The source never
checks this; it only checks for the leading hash mark. -/
def specWellFormedHex (s : String) : Bool :=
  startsWithHash s && (s.data.length == 7) && s.data.tail.all isHexDigitChar

/-- One halving of a non-negative IEEE-754 double, represented in units of the
smallest subnormal `2 ^ (-1074)` (the natural `n` stands for the double
`n * 2 ^ (-1074)`): when `n` is even the division is exact; when `n` is odd the
true quotient lies exactly halfway between two neighbouring multiples of one
unit and rounds to the even one.  The unit representation is exact for every
double reachable from `120.0` by halvings — their significands need at most the
four bits of `15`, so the only inexact halvings happen in the subnormal range,
where one unit is one ulp and this rounding rule is the IEEE one.  This models
the `TEMPO = TEMPO / 2` of the `[` command, whose exact-rational idealisation
in `stepCmd` cannot reach zero while the float can. -/
def floatHalfUnits (n : ℕ) : ℕ :=
  if n % 2 = 0 then n / 2
  else if (n / 2) % 2 = 0 then n / 2 else n / 2 + 1

/-- The initial `TEMPO = 120.0` in units of `2 ^ (-1074)`:
`120 = 15 * 2 ^ 3 = 15 * 2 ^ 1077 * 2 ^ (-1074)`. -/
def tempo120Units : ℕ := 15 * 2 ^ 1077

/-! ## Scheduler lemmas -/

theorem anchorInit_startTime_isSome (now : ℚ) (st : LoopState) :
    ((anchorInit now st).startTime).isSome := by
  cases hs : st.startTime <;> simp [anchorInit, hs, resetTiming]

theorem anchorInit_cycleNum (now : ℚ) (st : LoopState)
    (hinv : st.startTime = none → st.cycleNum = 0) :
    (anchorInit now st).cycleNum = st.cycleNum := by
  cases hs : st.startTime with
  | none => simp [anchorInit, hs, resetTiming, hinv hs]
  | some a => simp [anchorInit, hs]

theorem waitForNextCycle_fire {cfg : LoopConfig} {tempo now : ℚ}
    {st st' : LoopState}
    (heq : waitForNextCycle cfg tempo now st = some (st', true)) :
    st'.cycleNum = (anchorInit now st).cycleNum + 1 ∧
      st'.startTime = (anchorInit now st).startTime := by
  unfold waitForNextCycle at heq
  cases hc : calculateInterval cfg tempo with
  | none => rw [hc] at heq; simp at heq
  | some i =>
    rw [hc] at heq
    simp only [] at heq
    split at heq
    · simp only [Option.some.injEq, Prod.mk.injEq] at heq
      exact ⟨by rw [← heq.1], by rw [← heq.1]⟩
    · split at heq
      · simp at heq
      · simp only [Option.some.injEq, Prod.mk.injEq] at heq
        exact ⟨by rw [← heq.1], by rw [← heq.1]⟩

theorem waitForNextCycle_startTime_isSome {cfg : LoopConfig} {tempo now : ℚ}
    {st st' : LoopState} {r : Bool}
    (heq : waitForNextCycle cfg tempo now st = some (st', r)) :
    (st'.startTime).isSome := by
  unfold waitForNextCycle at heq
  cases hc : calculateInterval cfg tempo with
  | none => rw [hc] at heq; simp at heq
  | some i =>
    rw [hc] at heq
    simp only [] at heq
    split at heq
    · simp only [Option.some.injEq, Prod.mk.injEq] at heq
      rw [← heq.1]
      exact anchorInit_startTime_isSome now st
    · split at heq <;> simp only [Option.some.injEq, Prod.mk.injEq] at heq
      · rw [← heq.1]; simp [resetTiming]
      · rw [← heq.1]
        exact anchorInit_startTime_isSome now st

theorem runCycles_cycleNum_mono {cfg : LoopConfig} {tempo : ℚ} :
    ∀ (nows : List ℚ) (st stF : LoopState) (rs : List Bool),
      runCycles cfg tempo st nows = some (stF, rs) →
      (st.startTime = none → st.cycleNum = 0) →
      false ∉ rs →
      st.cycleNum ≤ stF.cycleNum := by
  intro nows
  induction nows with
  | nil =>
    intro st stF rs heq _ _
    simp only [runCycles, Option.some.injEq, Prod.mk.injEq] at heq
    rw [← heq.1]
  | cons now rest ih =>
    intro st stF rs heq hinv hns
    simp only [runCycles] at heq
    cases h1 : waitForNextCycle cfg tempo now st with
    | none => rw [h1] at heq; simp at heq
    | some p =>
      obtain ⟨st1, r⟩ := p
      rw [h1] at heq
      simp only [] at heq
      cases h2 : runCycles cfg tempo st1 rest with
      | none => rw [h2] at heq; simp at heq
      | some q =>
        obtain ⟨stF2, rs2⟩ := q
        rw [h2] at heq
        simp only [Option.some.injEq, Prod.mk.injEq] at heq
        obtain ⟨hF, hrs⟩ := heq
        subst hF
        have hr : r = true := by
          rcases r with - | -
          · exact absurd (hrs ▸ List.mem_cons_self false rs2) hns
          · rfl
        subst hr
        have hfire := waitForNextCycle_fire h1
        have hcn := anchorInit_cycleNum now st hinv
        have hinv1 : st1.startTime = none → st1.cycleNum = 0 := by
          intro habs
          have := waitForNextCycle_startTime_isSome h1
          rw [habs] at this
          simp at this
        have hns2 : false ∉ rs2 := by
          intro hmem
          exact hns (hrs ▸ List.mem_cons_of_mem true hmem)
        have := ih st1 stF2 rs2 h2 hinv1 hns2
        omega

/-! ## Claims about the scheduler -/

/-- C1: across calls to `wait_for_next_cycle` with no interleaved reset (all
calls fire), `cycle_num` never decreases; a call returns skip (`false`) and
resets the cursor to `anchorTime = now`, `cycle_num = 0` without incrementing
exactly when the slack `delta = target - now` is below `-100ms`; in every other
case (including the positive-slack sleep) the call increments `cycle_num` by
one and returns fire (`true`). -/
theorem C1_wait_for_next_cycle_contract :
    (∀ (cfg : LoopConfig) (tempo now : ℚ) (st : LoopState) (i : ℚ)
        (st' : LoopState) (r : Bool),
        calculateInterval cfg tempo = some i →
        (st.startTime = none → st.cycleNum = 0) →
        waitForNextCycle cfg tempo now st = some (st', r) →
        ((r = false ↔ waitTime now st i < -(1/10)) ∧
         (r = false → st' = resetTiming now) ∧
         (r = true → st'.cycleNum = st.cycleNum + 1 ∧
            st'.startTime = (anchorInit now st).startTime))) ∧
    (∀ (cfg : LoopConfig) (tempo : ℚ) (nows : List ℚ) (st stF : LoopState)
        (rs : List Bool),
        runCycles cfg tempo st nows = some (stF, rs) →
        (st.startTime = none → st.cycleNum = 0) →
        false ∉ rs →
        st.cycleNum ≤ stF.cycleNum) := by
  constructor
  · intro cfg tempo now st i st' r hcalc hinv heq
    have hcn := anchorInit_cycleNum now st hinv
    unfold waitForNextCycle at heq
    rw [hcalc] at heq
    simp only [] at heq
    split at heq
    next hpos =>
      simp only [Option.some.injEq, Prod.mk.injEq] at heq
      obtain ⟨hst, hr⟩ := heq
      refine ⟨?_, ?_, ?_⟩
      · rw [← hr]
        constructor
        · intro habs; exact absurd habs (by simp)
        · intro hlt; exact absurd hpos (by linarith)
      · intro habs; rw [← hr] at habs; exact absurd habs (by simp)
      · intro _; rw [← hst]; exact ⟨by simpa using congrArg Nat.succ hcn, rfl⟩
    next hpos =>
      split at heq
      next hlt =>
        simp only [Option.some.injEq, Prod.mk.injEq] at heq
        obtain ⟨hst, hr⟩ := heq
        refine ⟨?_, ?_, ?_⟩
        · rw [← hr]; exact ⟨fun _ => hlt, fun _ => rfl⟩
        · intro _; rw [← hst]
        · intro habs; rw [← hr] at habs; exact absurd habs (by simp)
      next hlt =>
        simp only [Option.some.injEq, Prod.mk.injEq] at heq
        obtain ⟨hst, hr⟩ := heq
        refine ⟨?_, ?_, ?_⟩
        · rw [← hr]
          constructor
          · intro habs; exact absurd habs (by simp)
          · intro h; exact absurd h hlt
        · intro habs; rw [← hr] at habs; exact absurd habs (by simp)
        · intro _; rw [← hst]; exact ⟨by simpa using congrArg Nat.succ hcn, rfl⟩
  · intro cfg tempo nows st stF rs heq hinv hns
    exact runCycles_cycleNum_mono nows st stF rs heq hinv hns

/-- Witness for C1 at the fade configuration (`beats_per_cycle = 2`, no
override), tempo 120, a fresh cursor and `now = 0`: the call fires and
increments `cycle_num` from 0 to 1; and a fresh cursor driven at instants
0 and 1 fires twice, so `cycle_num` does not decrease. -/
theorem C1_wait_for_next_cycle_contract_witness :
    ((false = (true : Bool)) ↔
        waitTime 0 { startTime := none, cycleNum := 0 } 1 < -(1/10)) ∧
      ((true : Bool) = true →
        ({ startTime := some 0, cycleNum := 1 } : LoopState).cycleNum =
            ({ startTime := none, cycleNum := 0 } : LoopState).cycleNum + 1 ∧
          ({ startTime := some 0, cycleNum := 1 } : LoopState).startTime =
            (anchorInit 0 { startTime := none, cycleNum := 0 }).startTime) ∧
      ({ startTime := none, cycleNum := 0 } : LoopState).cycleNum ≤
        ({ startTime := some 0, cycleNum := 2 } : LoopState).cycleNum := by
  have h1 := C1_wait_for_next_cycle_contract.1 ⟨some 2, none⟩ 120 0
    { startTime := none, cycleNum := 0 } 1 { startTime := some 0, cycleNum := 1 } true
    (by norm_num [calculateInterval])
    (fun _ => rfl)
    (by norm_num [waitForNextCycle, calculateInterval, anchorInit, waitTime, resetTiming])
  have h2 := C1_wait_for_next_cycle_contract.2 ⟨some 2, none⟩ 120 [0, 1]
    { startTime := none, cycleNum := 0 } { startTime := some 0, cycleNum := 2 }
    [true, true]
    (by norm_num [runCycles, waitForNextCycle, calculateInterval, anchorInit,
      waitTime, resetTiming])
    (fun _ => rfl)
    (by simp)
  refine ⟨?_, ⟨h1.2.2, h2⟩⟩
  constructor
  · intro habs; exact absurd habs (by simp)
  · intro hlt; exact absurd (h1.1.mpr hlt) (by simp)

/-- C2 fails as stated: `intervalOverride = 0` is a set override, yet the
computed interval at tempo 120 and `beats_per_cycle = 2` is 1 second, not the
override, because the Python guard `if self.interval:` treats `0` as unset. -/
theorem C2_counterexample_interval_override_zero :
    calculateInterval ⟨some 2, some 0⟩ 120 = some 1 ∧
      calculateInterval ⟨some 2, some 0⟩ 120 ≠ some 0 ∧
      (40 : ℚ) ≤ 120 ∧ (120 : ℚ) ≤ 240 := by
  refine ⟨by norm_num [calculateInterval], ?_, by norm_num, by norm_num⟩
  norm_num [calculateInterval]

/-- C2 (amended): with no override the interval is `(60 / T) * B`, and doubling
the tempo halves it; a *nonzero* override is returned as the interval
regardless of the tempo (an override of `0` is treated as unset by the
truthiness guard). -/
theorem C2_interval_formula :
    (∀ (T B : ℚ), 40 ≤ T → T ≤ 240 →
        calculateInterval ⟨some B, none⟩ T = some (60 / T * B) ∧
          calculateInterval ⟨some B, none⟩ (2 * T) = some ((60 / T * B) / 2)) ∧
    (∀ (bpc : Option ℚ) (v T : ℚ), v ≠ 0 →
        calculateInterval ⟨bpc, some v⟩ T = some v) := by
  constructor
  · intro T B hT _
    have hT0 : T ≠ 0 := by intro h; rw [h] at hT; norm_num at hT
    refine ⟨rfl, ?_⟩
    have h : 60 / (2 * T) * B = (60 / T * B) / 2 := by
      rw [div_mul_eq_mul_div, div_mul_eq_mul_div, div_div, mul_comm T 2]
    show some (60 / (2 * T) * B) = some ((60 / T * B) / 2)
    rw [h]
  · intro bpc v T hv
    simp [calculateInterval, hv]

/-- Witness for C2 (amended) at tempo 120, two beats per cycle, and at the
strobe override of 80 ms. -/
theorem C2_interval_formula_witness :
    (calculateInterval ⟨some 2, none⟩ 120 = some (60 / 120 * 2) ∧
      calculateInterval ⟨some 2, none⟩ (2 * 120) = some ((60 / 120 * 2) / 2)) ∧
      calculateInterval ⟨none, some (2/25)⟩ 53 = some (2/25) :=
  ⟨C2_interval_formula.1 120 2 (by norm_num) (by norm_num),
   C2_interval_formula.2 none (2/25) 53 (by norm_num)⟩

/-! ## The fade loop bug -/

/-- C3 names intended behaviour the code does not implement: on the very first
"fire" cycle of the fade loop the body executes `power_state = not power_state`
while `power_state` is an unbound local (its initialisation is commented out),
so the cycle raises `UnboundLocalError` instead of toggling and dispatching —
for every colour list, including the startup `COLORS`. -/
theorem C3_fade_first_fire_unbound_local :
    (∀ colors : List String, fadeFire (initFadeState colors) = none) ∧
      fadeFire (initFadeState initialColors) = none :=
  ⟨fun _ => rfl, rfl⟩

/-! ## Latency tracker lemmas -/

theorem recordLatency_foldl (xs : List ℚ) :
    ∀ h : List ℚ, h.length ≤ 50 →
      List.foldl recordLatency h xs = (h ++ xs).drop (h.length + xs.length - 50) := by
  induction xs with
  | nil =>
    intro h hle
    simp only [List.foldl_nil, List.append_nil, List.length_nil, Nat.add_zero]
    have h0 : h.length - 50 = 0 := by omega
    rw [h0, List.drop_zero]
  | cons x rest ih =>
    intro h hle
    rw [List.foldl_cons]
    by_cases h50 : h.length = 50
    · obtain ⟨a, t, rfl⟩ : ∃ a t, h = a :: t := by
        cases h with
        | nil => simp at h50
        | cons a t => exact ⟨a, t, rfl⟩
      have ht : t.length = 49 := by simpa using h50
      have hrec : recordLatency (a :: t) x = t ++ [x] := by
        simp [recordLatency, h50]
      rw [hrec, ih (t ++ [x]) (by simp [ht])]
      have hlen2 : (t ++ [x]).length + rest.length - 50 = rest.length := by
        simp only [List.length_append, List.length_cons, List.length_nil, ht]
        omega
      have hlen : (a :: t).length + (x :: rest).length - 50 = rest.length + 1 := by
        simp only [List.length_cons, ht]
        omega
      rw [hlen2, hlen]
      have hsplit : (a :: t) ++ x :: rest = a :: (t ++ x :: rest) := by simp
      rw [hsplit, List.drop_succ_cons, List.append_assoc, List.singleton_append]
    · have hrec : recordLatency h x = h ++ [x] := by simp [recordLatency, h50]
      rw [hrec, ih (h ++ [x]) (by simp; omega)]
      congr 1
      · simp only [List.length_append, List.length_cons, List.length_nil]
        omega
      · rw [List.append_assoc, List.singleton_append]

/-- C9: `stats` returns the "no data" sentinel exactly on an empty window;
appending keeps the window at capacity 50; and after recording any 51 samples
the window holds exactly the 50 most recent ones, so average, minimum and
maximum are computed over only those. -/
theorem C9_latency_window :
    (∀ h : List ℚ, getLatencyStats h = none ↔ h = []) ∧
    (∀ (h : List ℚ) (x : ℚ), h.length ≤ 50 → (recordLatency h x).length ≤ 50) ∧
    (∀ (h : List ℚ) (x : ℚ), h.length < 50 → recordLatency h x = h ++ [x]) ∧
    (∀ (h : List ℚ) (x : ℚ), h.length = 50 → recordLatency h x = h.tail ++ [x]) ∧
    (∀ xs : List ℚ, xs.length = 51 →
        List.foldl recordLatency [] xs = xs.drop 1 ∧ (xs.drop 1).length = 50 ∧
          getLatencyStats (List.foldl recordLatency [] xs) =
            getLatencyStats (xs.drop 1)) := by
  refine ⟨?_, ?_, ?_, ?_, ?_⟩
  · intro h; cases h <;> simp [getLatencyStats]
  · intro h x hle
    by_cases h50 : h.length = 50 <;> simp [recordLatency, h50] <;> omega
  · intro h x hlt
    simp [recordLatency, Nat.ne_of_lt hlt]
  · intro h x h50
    simp [recordLatency, h50]
  · intro xs h51
    have := recordLatency_foldl xs [] (by simp)
    rw [h51] at this
    simp only [List.nil_append, List.length_nil, Nat.zero_add] at this
    have hdrop : (51 : ℕ) - 50 = 1 := by omega
    rw [hdrop] at this
    refine ⟨this, ?_, by rw [this]⟩
    rw [List.length_drop, h51]

/-- Witness for C9: the window after recording 51 samples of 7 ms each is
exactly the 50 most recent of them. -/
theorem C9_latency_window_witness :
    List.foldl recordLatency [] (List.replicate 51 ((7 : ℚ)/1000)) =
      (List.replicate 51 ((7 : ℚ)/1000)).drop 1 ∧
    ((List.replicate 51 ((7 : ℚ)/1000)).drop 1).length = 50 ∧
    getLatencyStats (List.foldl recordLatency [] (List.replicate 51 ((7 : ℚ)/1000))) =
      getLatencyStats ((List.replicate 51 ((7 : ℚ)/1000)).drop 1) :=
  C9_latency_window.2.2.2.2 (List.replicate 51 ((7 : ℚ)/1000))
    (List.length_replicate 51 ((7 : ℚ)/1000))

/-! ## Tap-tempo claims -/

/-- C6: each tap appends to the capacity-8 buffer; with at least two buffered
timestamps the published tempo is `round(60 / mean consecutive interval)`
clamped to `[40, 240]`, and with fewer than two the tempo is unchanged.
Concretely, taps at 0, 0.5 and 1.0 seconds publish 120 BPM, and taps with a
mean interval of 0.1 s publish the clamped 240 BPM. -/
theorem C6_tap_tempo_publishes :
    (∀ (buf : List ℚ) (t now : ℚ), buf.length ≤ 8 →
        ((tapStep buf t now).1).length ≤ 8) ∧
    (∀ (buf : List ℚ) (t now : ℚ), 2 ≤ (pushTap buf now).length →
        (tapStep buf t now).1 = pushTap buf now ∧
        (tapStep buf t now).2 =
          ((clampTempo (pyRound (60 / meanOf (intervalsOf (pushTap buf now))))) : ℚ)) ∧
    (∀ (buf : List ℚ) (t now : ℚ), (pushTap buf now).length < 2 →
        (tapStep buf t now).1 = pushTap buf now ∧ (tapStep buf t now).2 = t) ∧
    ((runTaps 97 [0, 1/2, 1]).2 = 120) ∧
    ((runTaps 97 [0, 1/10, 2/10, 3/10]).2 = 240) := by
  refine ⟨?_, ?_, ?_, ?_, ?_⟩
  · intro buf t now hle
    by_cases h8 : buf.length = 8 <;>
      simp [tapStep, pushTap, h8] <;> split <;> simp <;> omega
  · intro buf t now h2
    simp [tapStep, h2]
  · intro buf t now hlt
    have h2 : ¬ (2 ≤ (pushTap buf now).length) := by omega
    simp [tapStep, h2]
  · norm_num [runTaps, tapStep, pushTap, intervalsOf, meanOf, pyRound, clampTempo]
  · norm_num [runTaps, tapStep, pushTap, intervalsOf, meanOf, pyRound, clampTempo]

/-- Witness for C6: a second tap at 0.5 s after a first tap at 0 s publishes
the tempo computed from the single half-second interval. -/
theorem C6_tap_tempo_publishes_witness :
    (tapStep [0] 97 (1/2)).1 = pushTap [0] (1/2) ∧
      (tapStep [0] 97 (1/2)).2 =
        ((clampTempo (pyRound (60 / meanOf (intervalsOf (pushTap [0] (1/2)))))) : ℚ) :=
  C6_tap_tempo_publishes.2.1 [0] 97 (1/2) (by norm_num [pushTap])

/-! ## Dispatcher lemmas -/

theorem liveTasks_stepCmd_le (s : DispatchState) (c : Cmd) (h : liveTasks s ≤ 1) :
    liveTasks (stepCmd s c).1 ≤ 1 := by
  cases c with
  | q => exact h
  | e => exact h
  | p => exact h
  | setColorCmd c => exact h
  | f => exact h
  | strobeCmd =>
    simp only [stepCmd]
    split_ifs <;> simp [liveTasks, stopAllTasks]
  | fadeCmd c => simp [liveTasks, stepCmd, stopAllTasks]
  | switchCmd c => simp [liveTasks, stepCmd, stopAllTasks]
  | colorsCmd args =>
    simp only [stepCmd]
    split_ifs <;> exact h
  | palette => exact h
  | beatCmd => simp [liveTasks, stepCmd, stopAllTasks]
  | tapCmd taps => exact h
  | tempoCmd arg =>
    cases arg with
    | none => exact h
    | some n =>
      simp only [stepCmd]
      split_ifs <;> exact h
  | dblTempo => exact h
  | halveTempo => exact h
  | stopCmd => simp [liveTasks, stepCmd, stopAllTasks]
  | statsCmd => exact h
  | unknown => exact h

theorem liveTasks_runCmds_le :
    ∀ (cmds : List Cmd) (s : DispatchState), liveTasks s ≤ 1 →
      liveTasks (runCmds s cmds) ≤ 1 := by
  intro cmds
  induction cmds with
  | nil => intro s h; exact h
  | cons c rest ih => intro s h; exact ih _ (liveTasks_stepCmd_le s c h)

theorem floatHalfUnits_even_pow (m : ℕ) :
    floatHalfUnits (15 * 2 ^ (m + 1)) = 15 * 2 ^ m := by
  have h2 : 15 * 2 ^ (m + 1) = (15 * 2 ^ m) * 2 := by ring
  rw [h2]
  have heven : ((15 * 2 ^ m) * 2) % 2 = 0 := Nat.mul_mod_left (15 * 2 ^ m) 2
  simp [floatHalfUnits, heven]

theorem floatHalfUnits_iter_pow :
    ∀ k m : ℕ, Nat.iterate floatHalfUnits k (15 * 2 ^ (m + k)) = 15 * 2 ^ m := by
  intro k
  induction k with
  | zero => intro m; rfl
  | succ k ih =>
    intro m
    rw [Function.iterate_succ_apply]
    have hidx : m + (k + 1) = (m + k) + 1 := rfl
    rw [hidx, floatHalfUnits_even_pow (m + k)]
    exact ih m

/-! ## Dispatcher claims -/

/-- C4: starting from the initial dispatcher state, after any sequence of
commands at most one of the four task handles is non-null; and every
loop-starting command (fade, switch, beat, and strobe toggled on) leaves
exactly one live handle. -/
theorem C4_at_most_one_live_task :
    (∀ cmds : List Cmd, liveTasks (runCmds initDispatch cmds) ≤ 1) ∧
    (∀ (s : DispatchState) (c : Option String),
        liveTasks (stepCmd s (Cmd.fadeCmd c)).1 = 1 ∧
        liveTasks (stepCmd s (Cmd.switchCmd c)).1 = 1) ∧
    (∀ s : DispatchState, liveTasks (stepCmd s Cmd.beatCmd).1 = 1) ∧
    (∀ s : DispatchState, s.strobe = false →
        liveTasks (stepCmd s Cmd.strobeCmd).1 = 1) := by
  refine ⟨?_, ?_, ?_, ?_⟩
  · intro cmds
    exact liveTasks_runCmds_le cmds initDispatch (by simp [liveTasks, initDispatch])
  · intro s c
    constructor <;> simp [liveTasks, stepCmd, stopAllTasks]
  · intro s
    simp [liveTasks, stepCmd, stopAllTasks]
  · intro s h
    simp [liveTasks, stepCmd, stopAllTasks, h]

/-- Witness for C4: toggling strobe on from the initial state leaves exactly
one live handle. -/
theorem C4_at_most_one_live_task_witness :
    liveTasks (stepCmd initDispatch Cmd.strobeCmd).1 = 1 :=
  C4_at_most_one_live_task.2.2.2 initDispatch rfl

/-- C5: toggling strobe on records which of fade/switch was live, stops
everything and starts only the strobe; `fade` then strobe on then strobe off
resumes a fade loop with the default (no colour) argument; and if neither fade
nor switch was live at strobe-on, strobe-off leaves no loop running. -/
theorem C5_strobe_toggle :
    (∀ s : DispatchState, s.strobe = false →
        (stepCmd s Cmd.strobeCmd).1.strobeTask = some none ∧
        (stepCmd s Cmd.strobeCmd).1.beatTask = false ∧
        (stepCmd s Cmd.strobeCmd).1.fadeTask = none ∧
        (stepCmd s Cmd.strobeCmd).1.switchTask = none ∧
        (stepCmd s Cmd.strobeCmd).1.prevFade = s.fadeTask.isSome ∧
        (stepCmd s Cmd.strobeCmd).1.prevSwitch = s.switchTask.isSome) ∧
    (∀ (s : DispatchState) (c : Option String), s.strobe = false →
        (runCmds s [Cmd.fadeCmd c, Cmd.strobeCmd, Cmd.strobeCmd]).fadeTask = some none ∧
        (runCmds s [Cmd.fadeCmd c, Cmd.strobeCmd, Cmd.strobeCmd]).beatTask = false ∧
        (runCmds s [Cmd.fadeCmd c, Cmd.strobeCmd, Cmd.strobeCmd]).switchTask = none ∧
        (runCmds s [Cmd.fadeCmd c, Cmd.strobeCmd, Cmd.strobeCmd]).strobeTask = none) ∧
    (∀ s : DispatchState, s.strobe = false → s.fadeTask = none →
        s.switchTask = none →
        (runCmds s [Cmd.strobeCmd, Cmd.strobeCmd]).beatTask = false ∧
        (runCmds s [Cmd.strobeCmd, Cmd.strobeCmd]).fadeTask = none ∧
        (runCmds s [Cmd.strobeCmd, Cmd.strobeCmd]).switchTask = none ∧
        (runCmds s [Cmd.strobeCmd, Cmd.strobeCmd]).strobeTask = none) := by
  refine ⟨?_, ?_, ?_⟩
  · intro s h
    simp [stepCmd, stopAllTasks, h]
  · intro s c h
    simp [runCmds, stepCmd, stopAllTasks, h]
  · intro s h hf hs
    simp [runCmds, stepCmd, stopAllTasks, h, hf, hs]

/-- Witness for C5: from the initial state, `fade` then strobe on then strobe
off leaves exactly the fade loop, restarted with the default argument. -/
theorem C5_strobe_toggle_witness :
    (runCmds initDispatch [Cmd.fadeCmd none, Cmd.strobeCmd, Cmd.strobeCmd]).fadeTask
        = some none ∧
      (runCmds initDispatch [Cmd.fadeCmd none, Cmd.strobeCmd, Cmd.strobeCmd]).beatTask
        = false ∧
      (runCmds initDispatch [Cmd.fadeCmd none, Cmd.strobeCmd, Cmd.strobeCmd]).switchTask
        = none ∧
      (runCmds initDispatch [Cmd.fadeCmd none, Cmd.strobeCmd, Cmd.strobeCmd]).strobeTask
        = none :=
  C5_strobe_toggle.2.1 initDispatch none rfl

/-- C7 fails as stated: `"#GGGGGG"` is neither a recognised name nor
well-formed hex, yet a `colors` command consisting of only this entry is not
rejected — the colour sequence is replaced by `["#GGGGGG"]` (it differs from
the prior sequence) and no invalid-input error is signalled, because the code
filters only on the leading hash mark. -/
theorem C7_counterexample_malformed_hex :
    specWellFormedHex "#GGGGGG" = false ∧
      namedColors.lookup (strLower "#GGGGGG") = none ∧
      (stepCmd initDispatch (Cmd.colorsCmd ["#GGGGGG"])).1.colors = ["#GGGGGG"] ∧
      (stepCmd initDispatch (Cmd.colorsCmd ["#GGGGGG"])).2 = [] ∧
      initDispatch.colors ≠ ["#GGGGGG"] := by
  refine ⟨by decide, by decide, by decide, by decide, by decide⟩

/-- C7 (amended): each argument is name-resolved; entries whose resolution does
not start with the hash mark (unrecognised names) are filtered out, while any
hash-led string passes without hex validation; if at least one entry passes,
the sequence becomes exactly the passing entries in order; if none passes, the
sequence is unchanged and the invalid-input error is signalled. -/
theorem C7_colors_update :
    ∀ (s : DispatchState) (args : List String), args ≠ [] →
      ((((args.map resolveColor).filter (fun c => startsWithHash c)) ≠ [] →
        (stepCmd s (Cmd.colorsCmd args)).1.colors =
          (args.map resolveColor).filter (fun c => startsWithHash c) ∧
        (stepCmd s (Cmd.colorsCmd args)).2 = []) ∧
      ((((args.map resolveColor).filter (fun c => startsWithHash c)) = []) →
        (stepCmd s (Cmd.colorsCmd args)).1.colors = s.colors ∧
        (stepCmd s (Cmd.colorsCmd args)).2 = [Action.invalidColorsMsg])) := by
  intro s args hargs
  constructor
  · intro hne
    simp [stepCmd, hargs, hne]
  · intro hempty
    simp [stepCmd, hargs, hempty]

/-- Witness for C7 (amended): `colors red nope` keeps exactly the resolved
`"#FF0000"` and drops the unrecognised `"nope"`. -/
theorem C7_colors_update_witness :
    (stepCmd initDispatch (Cmd.colorsCmd ["red", "nope"])).1.colors =
        (( ["red", "nope"].map resolveColor).filter (fun c => startsWithHash c)) ∧
      (stepCmd initDispatch (Cmd.colorsCmd ["red", "nope"])).2 = [] :=
  (C7_colors_update initDispatch ["red", "nope"] (by decide)).1 (by decide)

/-- C8 fails on the code: the `[` branch `TEMPO = TEMPO / 2` has no floor, and
in the source's IEEE-754 double arithmetic 1082 consecutive halvings of the
initial `120.0` underflow to exactly `0.0` — after which `calculate_interval`'s
`60 / TEMPO` is a division by zero — while 1081 halvings still leave the
smallest positive subnormal.  The trajectory is computed exactly in units of
`2 ^ (-1074)`. -/
theorem C8_tempo_underflows_to_zero :
    Nat.iterate floatHalfUnits 1082 tempo120Units = 0 ∧
      Nat.iterate floatHalfUnits 1081 tempo120Units = 1 ∧
      tempo120Units = 15 * 2 ^ 1077 := by
  have h1077 : Nat.iterate floatHalfUnits 1077 tempo120Units = 15 := by
    have h := floatHalfUnits_iter_pow 1077 0
    rw [pow_zero, mul_one, Nat.zero_add] at h
    have hu : tempo120Units = 15 * 2 ^ 1077 := rfl
    rw [hu]
    exact h
  refine ⟨?_, ?_, rfl⟩
  · have hsplit : (1082 : ℕ) = 5 + 1077 := rfl
    rw [hsplit, Function.iterate_add_apply, h1077]
    decide
  · have hsplit : (1081 : ℕ) = 4 + 1077 := rfl
    rw [hsplit, Function.iterate_add_apply, h1077]
    decide

/-- C10: the `p` command dispatches `set_power` with the *old* value of the
power flag and only then negates the flag, so the value sent is always the
negation of the state reported afterwards; in particular the first `p` after
startup sends power-off while reporting power as on. -/
theorem C10_power_toggle_dispatches_stale_value :
    (∀ s : DispatchState,
        (stepCmd s Cmd.p).2 = [Action.setPowerA s.power] ∧
        (stepCmd s Cmd.p).1.power = !s.power) ∧
      (stepCmd initDispatch Cmd.p).2 = [Action.setPowerA false] ∧
      (stepCmd initDispatch Cmd.p).1.power = true :=
  ⟨fun s => ⟨rfl, rfl⟩, rfl, rfl⟩

end Lighting
